import Mathlib

/-!
Shallow embedding of the dealtrail transaction-state-machine core
(`src/ingest/task.py`, `src/ingest/state.py`, `src/ingest/transaction.py`).

Modelling conventions:
* `uuid.UUID` values are modelled as `Nat`; the fresh ids produced by
  `uuid4()` are supplied explicitly (an `idBase` counter) by callers.
* `datetime.datetime` values are modelled as `Int` timestamps;
  `timedelta(days = d)` addition is integer addition.  `datetime.now()`
  is supplied explicitly as a `now` argument.
* `str(uuid)` / `UUID(s)` and `datetime.isoformat()` /
  `datetime.fromisoformat(s)` are mutually inverse injective string
  codecs in Python; they are modelled by the concrete injective codecs
  `encNat`/`decNat` and `encInt`/`decInt` below (digit strings;
  little-endian digit order, which is irrelevant to any property here).
* Python `dict`s are association lists in insertion order (`d[k] = v`
  replaces in place when the key is present, appends otherwise);
  Python `set[str]` (`State.allowed_transitions`) is a `List String`
  queried only by membership.
* Free-form `Any` metadata payloads are modelled by the JSON-like
  value type `JValue`, which `to_dict`/`from_dict` carry through
  unchanged, exactly as the Python code does.
-/

namespace Ingest

/-- JSON-compatible values: the currency of `to_dict`/`from_dict`. -/
inductive JValue where
  | null
  | str (s : String)
  | num (n : Int)
  | boolean (b : Bool)
  | arr (items : List JValue)
  | obj (fields : List (String × JValue))

/-- Python truthiness of a JSON-shaped value (`if value:`). -/
def JValue.truthy : JValue → Bool
  | .null => false
  | .str s => s != ""
  | .num n => n != 0
  | .boolean b => b
  | .arr items => !(items.isEmpty)
  | .obj fields => !(fields.isEmpty)

/-- First field with the given key in a field list (Python `dict` lookup). -/
def lookupField : List (String × JValue) → String → Option JValue
  | [], _ => none
  | p :: ps, key => if p.1 = key then some p.2 else lookupField ps key

/-- `data.get(key)` / `data[key]` on a dict-shaped value. -/
def JValue.getField : JValue → String → Option JValue
  | .obj fields, key => lookupField fields key
  | _, _ => none

/-- Extract a string payload; `none` on any other shape. -/
def asStr : JValue → Option String
  | .str s => some s
  | _ => none

/-- `Option`-valued effectful map over a list, propagating the first failure. -/
def listMapM {α β : Type} (f : α → Option β) : List α → Option (List β)
  | [] => some []
  | a :: as =>
    match f a, listMapM f as with
    | some b, some bs => some (b :: bs)
    | _, _ => none

/-- Association-list lookup for Python `dict` state (first matching key). -/
def dlookup {κ α : Type} [DecidableEq κ] : List (κ × α) → κ → Option α
  | [], _ => none
  | p :: ps, k => if p.1 = k then some p.2 else dlookup ps k

/-- Association-list key membership (`k in d`). -/
def dcontains {κ α : Type} [DecidableEq κ] : List (κ × α) → κ → Bool
  | [], _ => false
  | p :: ps, k => if p.1 = k then true else dcontains ps k

/-- Python `d[k] = v`: replace in place when the key is present, append
otherwise (dicts preserve insertion order). -/
def dinsert {κ α : Type} [DecidableEq κ] (l : List (κ × α)) (k : κ) (v : α) :
    List (κ × α) :=
  if dcontains l k then l.map (fun p => if p.1 = k then (k, v) else p)
  else l ++ [(k, v)]

/-- Little-endian base-10 digits of a natural number (`[]` for `0`). -/
def natDigitsLE : Nat → List Nat
  | 0 => []
  | n + 1 => ((n + 1) % 10) :: natDigitsLE ((n + 1) / 10)
decreasing_by exact Nat.div_lt_self (Nat.succ_pos n) (by decide)

/-- Value of a little-endian digit list. -/
def digitsVal : List Nat → Nat
  | [] => 0
  | d :: ds => d + 10 * digitsVal ds

/-- Digit to character. -/
def digitChar10 : Nat → Char
  | 0 => '0'
  | 1 => '1'
  | 2 => '2'
  | 3 => '3'
  | 4 => '4'
  | 5 => '5'
  | 6 => '6'
  | 7 => '7'
  | 8 => '8'
  | _ => '9'

/-- Character to digit; `none` for non-digit characters. -/
def charDigit10 (c : Char) : Option Nat :=
  if c = '0' then some 0
  else if c = '1' then some 1
  else if c = '2' then some 2
  else if c = '3' then some 3
  else if c = '4' then some 4
  else if c = '5' then some 5
  else if c = '6' then some 6
  else if c = '7' then some 7
  else if c = '8' then some 8
  else if c = '9' then some 9
  else none

/-- Digit-string rendering of a natural number (never empty). -/
def charsOfNat (n : Nat) : List Char :=
  if n = 0 then ['0'] else (natDigitsLE n).map digitChar10

/-- Models `str(uuid)`: an injective string rendering of the id. -/
def encNat (n : Nat) : String := String.mk (charsOfNat n)

/-- Parse a digit list back to a natural number (`none` on the empty list). -/
def decNatChars : List Char → Option Nat
  | [] => none
  | c :: cs => (listMapM charDigit10 (c :: cs)).map digitsVal

/-- Models `UUID(s)`: inverse of `encNat`; `none` models a raised `ValueError`. -/
def decNat (s : String) : Option Nat := decNatChars s.data

/-- Models `datetime.isoformat()`: an injective string rendering of the
integer timestamp (never empty). -/
def encInt (i : Int) : String :=
  if i < 0 then String.mk ('-' :: charsOfNat i.natAbs)
  else String.mk (charsOfNat i.toNat)

/-- Character-list form of `decInt`. -/
def decIntChars : List Char → Option Int
  | [] => none
  | c :: cs =>
    if c = '-' then (decNatChars cs).map (fun n => -(n : Int))
    else (decNatChars (c :: cs)).map (fun n => (n : Int))

/-- Models `datetime.fromisoformat(s)`: inverse of `encInt`. -/
def decInt (s : String) : Option Int :=
  decIntChars s.data

/-- Decoder for a serialized list of ids (`[UUID(x) for x in l]`). -/
def decodeIdList (items : List JValue) : Option (List Nat) :=
  listMapM (fun v => (asStr v).bind decNat) items

/-- Decoder for a serialized list of strings. -/
def decodeStrList (items : List JValue) : Option (List String) :=
  listMapM asStr items

/-! ### task.py -/

/-- `TaskStatus` enumeration (task.py lines 16-21). -/
inductive TaskStatus where
  | pending
  | in_progress
  | completed
  | blocked
deriving DecidableEq

/-- The string tag of a status (`status.value`). -/
def TaskStatus.value : TaskStatus → String
  | .pending => "pending"
  | .in_progress => "in_progress"
  | .completed => "completed"
  | .blocked => "blocked"

/-- `TaskStatus(s)`: `none` models the raised `ValueError` on an unknown tag. -/
def TaskStatus.ofValue (s : String) : Option TaskStatus :=
  if s = "pending" then some .pending
  else if s = "in_progress" then some .in_progress
  else if s = "completed" then some .completed
  else if s = "blocked" then some .blocked
  else none

/-- `Task` dataclass (task.py lines 24-59). -/
structure Task where
  id : Nat
  title : String := ""
  description : String := ""
  status : TaskStatus := .pending
  created_at : Int
  completed_at : Option Int := none
  assignee : Option String := none
  due_date : Option Int := none
  dependencies : List Nat := []
  metadata : JValue := .obj []

/-- `mark_in_progress` (task.py lines 61-64): only takes effect from PENDING. -/
def Task.mark_in_progress (t : Task) : Task :=
  if t.status = .pending then { t with status := .in_progress } else t

/-- `mark_completed` (task.py lines 66-69): unconditional, stamps `completed_at`
with `datetime.now()` (passed as `now`). -/
def Task.mark_completed (t : Task) (now : Int) : Task :=
  { t with status := .completed, completed_at := some now }

/-- `mark_blocked` (task.py lines 71-73): unconditional. -/
def Task.mark_blocked (t : Task) : Task :=
  { t with status := .blocked }

/-- `is_blocked_by_dependencies` (task.py lines 75-89). -/
def Task.is_blocked_by_dependencies (t : Task) (all_tasks : List (Nat × Task)) :
    Bool :=
  t.dependencies.any (fun dep_id =>
    match dlookup all_tasks dep_id with
    | some dep_task => dep_task.status != .completed
    | none => false)

/-- `can_start` (task.py lines 91-101). -/
def Task.can_start (t : Task) (all_tasks : List (Nat × Task)) : Bool :=
  !(t.is_blocked_by_dependencies all_tasks)

/-- `Task.to_dict` (task.py lines 103-121). -/
def Task.to_dict (t : Task) : JValue :=
  .obj
    [ ("id", .str (encNat t.id))
    , ("title", .str t.title)
    , ("description", .str t.description)
    , ("status", .str t.status.value)
    , ("created_at", .str (encInt t.created_at))
    , ("completed_at",
        match t.completed_at with | some d => .str (encInt d) | none => .null)
    , ("assignee", match t.assignee with | some a => .str a | none => .null)
    , ("due_date",
        match t.due_date with | some d => .str (encInt d) | none => .null)
    , ("dependencies", .arr (t.dependencies.map (fun d => .str (encNat d))))
    , ("metadata", t.metadata) ]

/-- `Task.from_dict` (task.py lines 123-145).  `none` models a raised
exception.  The truthiness guards on `completed_at`/`due_date` mirror
`if data.get(k):`.  Fields assigned without conversion in Python
(`title`, `description`, `assignee`) are required to be strings here;
dicts produced by `to_dict` always satisfy this. -/
def Task.from_dict (data : JValue) : Option Task := do
  let id ← (data.getField "id").bind asStr >>= decNat
  let title ← (data.getField "title").bind asStr
  let description ← (data.getField "description").bind asStr
  let status ← (data.getField "status").bind asStr >>= TaskStatus.ofValue
  let created_at ← (data.getField "created_at").bind asStr >>= decInt
  let completed_at ←
    match data.getField "completed_at" with
    | some v =>
      if v.truthy then ((asStr v).bind decInt).map some else some none
    | none => some none
  let assignee ←
    match data.getField "assignee" with
    | some (.str a) => some (some a)
    | some .null => some none
    | none => some none
    | some _ => none
  let due_date ←
    match data.getField "due_date" with
    | some v =>
      if v.truthy then ((asStr v).bind decInt).map some else some none
    | none => some none
  let dependencies ←
    match data.getField "dependencies" with
    | some (.arr l) => decodeIdList l
    | none => some []
    | some _ => none
  let metadata := (data.getField "metadata").getD (.obj [])
  pure
    { id := id
    , title := title
    , description := description
    , status := status
    , created_at := created_at
    , completed_at := completed_at
    , assignee := assignee
    , due_date := due_date
    , dependencies := dependencies
    , metadata := metadata }

/-! ### state.py -/

/-- `TaskTemplate` dataclass (state.py lines 13-34). -/
structure TaskTemplate where
  title : String
  description : String := ""
  assignee : Option String := none
  days_until_due : Option Int := none
  dependencies : List String := []
  metadata : JValue := .obj []

/-- `State` dataclass (state.py lines 37-69).  The recursive `parent`
back-reference and `children` list make this a nested inductive; Lean's
inductive values are exactly the acyclic object graphs, so the spec's
unchecked acyclicity precondition is structural here. -/
inductive State where
  | mk
    (name : String)
    (display_name : String)
    (description : String)
    (parent : Option State)
    (children : List State)
    (allowed_transitions : List String)
    (task_templates : List TaskTemplate)
    (metadata : JValue)

def State.name : State → String
  | .mk n _ _ _ _ _ _ _ => n

def State.display_name : State → String
  | .mk _ d _ _ _ _ _ _ => d

def State.description : State → String
  | .mk _ _ d _ _ _ _ _ => d

def State.parent : State → Option State
  | .mk _ _ _ p _ _ _ _ => p

def State.children : State → List State
  | .mk _ _ _ _ c _ _ _ => c

def State.allowed_transitions : State → List String
  | .mk _ _ _ _ _ a _ _ => a

def State.task_templates : State → List TaskTemplate
  | .mk _ _ _ _ _ _ t _ => t

def State.metadata : State → JValue
  | .mk _ _ _ _ _ _ _ m => m

/-- `can_transition_to` (state.py lines 71-81): set membership. -/
def State.can_transition_to (s : State) (target_state_name : String) : Bool :=
  s.allowed_transitions.contains target_state_name

/-- `get_full_path` (state.py lines 103-115): the while-loop accumulator
(`path.insert(0, current.name); current = current.parent`). -/
def State.pathAux : State → List String → List String
  | .mk n _ _ p _ _ _ _, acc =>
    match p with
    | none => n :: acc
    | some ps => ps.pathAux (n :: acc)

def State.get_full_path (s : State) : List String :=
  s.pathAux []

/-- The parent chain of a state, root ancestor first, the state itself
last: the sequence `get_full_path` is specified to name. -/
def State.chain : State → List State
  | .mk n d de p c a t m =>
    (match p with
     | none => []
     | some ps => ps.chain) ++ [.mk n d de p c a t m]

/-- `TaskTemplate` serialization inside `State.to_dict` (state.py 130-140). -/
def TaskTemplate.to_dict (tt : TaskTemplate) : JValue :=
  .obj
    [ ("title", .str tt.title)
    , ("description", .str tt.description)
    , ("assignee", match tt.assignee with | some a => .str a | none => .null)
    , ("days_until_due",
        match tt.days_until_due with | some d => .num d | none => .null)
    , ("dependencies", .arr (tt.dependencies.map .str))
    , ("metadata", tt.metadata) ]

/-- `TaskTemplate(**tt)` as used by `State.from_dict` (state.py line 162):
a missing `title` key raises (`none`); absent optional keys take the
dataclass defaults.  Python would accept payloads of the wrong runtime
type without checking; dicts produced by `to_dict` are always
well-typed, which is what this model requires. -/
def TaskTemplate.from_dict (data : JValue) : Option TaskTemplate := do
  let title ← (data.getField "title").bind asStr
  let description ←
    match data.getField "description" with
    | some (.str s) => some s
    | none => some ""
    | some _ => none
  let assignee ←
    match data.getField "assignee" with
    | some (.str a) => some (some a)
    | some .null => some none
    | none => some none
    | some _ => none
  let days_until_due ←
    match data.getField "days_until_due" with
    | some (.num d) => some (some d)
    | some .null => some none
    | none => some none
    | some _ => none
  let dependencies ←
    match data.getField "dependencies" with
    | some (.arr l) => decodeStrList l
    | none => some []
    | some _ => none
  let metadata := (data.getField "metadata").getD (.obj [])
  pure
    { title := title
    , description := description
    , assignee := assignee
    , days_until_due := days_until_due
    , dependencies := dependencies
    , metadata := metadata }

/-- Decoder for the serialized template list of a state. -/
def decodeTemplateList (items : List JValue) : Option (List TaskTemplate) :=
  listMapM TaskTemplate.from_dict items

/-- `StateRegistry` (state.py lines 175-218): a name-keyed dict of states. -/
structure StateRegistry where
  states : List (String × State)

/-- `register` (state.py lines 190-197): insert or replace by name. -/
def StateRegistry.register (r : StateRegistry) (state : State) :
    StateRegistry :=
  ⟨dinsert r.states state.name state⟩

/-- `get` (state.py lines 199-209). -/
def StateRegistry.get (r : StateRegistry) (name : String) : Option State :=
  dlookup r.states name

/-- `name in registry._states` key-membership test. -/
def StateRegistry.containsName (r : StateRegistry) (name : String) : Bool :=
  dcontains r.states name

/-- The errors one state contributes to `validate_transitions`: one
message per `allowed_transitions` entry that is not a registered name,
in iteration order. -/
def transitionErrors (r : StateRegistry) (sname : String)
    (ts : List String) : List String :=
  ts.filterMap (fun target_name =>
    if r.containsName target_name then none
    else some ("State \x27" ++ sname ++
      "\x27 allows transition to undefined state \x27" ++
      target_name ++ "\x27"))

/-- Inner loop of `validate_transitions` over the registry entries. -/
def validateAux (r : StateRegistry) : List (String × State) → List String
  | [] => []
  | p :: ps =>
    transitionErrors r p.2.name p.2.allowed_transitions ++ validateAux r ps

/-- `validate_transitions` (state.py lines 220-235). -/
def StateRegistry.validate_transitions (r : StateRegistry) : List String :=
  validateAux r r.states

/-- `State.to_dict` (state.py lines 117-142): `children` are not
serialized; `parent` is serialized as a name reference only. -/
def State.to_dict (s : State) : JValue :=
  .obj
    [ ("name", .str s.name)
    , ("display_name", .str s.display_name)
    , ("description", .str s.description)
    , ("parent", match s.parent with | some p => .str p.name | none => .null)
    , ("allowed_transitions", .arr (s.allowed_transitions.map .str))
    , ("task_templates", .arr (s.task_templates.map TaskTemplate.to_dict))
    , ("metadata", s.metadata) ]

/-- `State.from_dict` (state.py lines 144-172).  The parent is resolved
against the registry only when the serialized name is truthy and
registered (`if parent_name and parent_name in state_registry._states:`);
otherwise it is left unset.  `children` always starts empty. -/
def State.from_dict (data : JValue) (state_registry : StateRegistry) :
    Option State := do
  let name ← (data.getField "name").bind asStr
  let display_name ← (data.getField "display_name").bind asStr
  let description ←
    match data.getField "description" with
    | some (.str s) => some s
    | none => some ""
    | some _ => none
  let allowed_transitions ←
    match data.getField "allowed_transitions" with
    | some (.arr l) => decodeStrList l
    | none => some []
    | some _ => none
  let task_templates ←
    match data.getField "task_templates" with
    | some (.arr l) => decodeTemplateList l
    | none => some []
    | some _ => none
  let metadata := (data.getField "metadata").getD (.obj [])
  let parent :=
    match data.getField "parent" with
    | some (.str s) =>
      if s = "" then none
      else if state_registry.containsName s then state_registry.get s
      else none
    | _ => none
  pure (State.mk name display_name description parent [] allowed_transitions
    task_templates metadata)

/-! ### transaction.py -/

/-- `StateTransition` dataclass (transaction.py lines 18-35). -/
structure StateTransition where
  timestamp : Int
  from_state : Option String
  to_state : String
  notes : String := ""
  metadata : JValue := .obj []

/-- `StateTransition.to_dict` (transaction.py lines 37-45). -/
def StateTransition.to_dict (t : StateTransition) : JValue :=
  .obj
    [ ("timestamp", .str (encInt t.timestamp))
    , ("from_state",
        match t.from_state with | some s => .str s | none => .null)
    , ("to_state", .str t.to_state)
    , ("notes", .str t.notes)
    , ("metadata", t.metadata) ]

/-- `StateTransition.from_dict` (transaction.py lines 47-56). -/
def StateTransition.from_dict (data : JValue) : Option StateTransition := do
  let timestamp ← (data.getField "timestamp").bind asStr >>= decInt
  let from_state ←
    match data.getField "from_state" with
    | some (.str s) => some (some s)
    | some .null => some none
    | none => some none
    | some _ => none
  let to_state ← (data.getField "to_state").bind asStr
  let notes ←
    match data.getField "notes" with
    | some (.str s) => some s
    | none => some ""
    | some _ => none
  let metadata := (data.getField "metadata").getD (.obj [])
  pure
    { timestamp := timestamp
    , from_state := from_state
    , to_state := to_state
    , notes := notes
    , metadata := metadata }

/-- Decoder for the serialized state history. -/
def decodeTransitionList (items : List JValue) : Option (List StateTransition) :=
  listMapM StateTransition.from_dict items

/-- Decoder for the serialized task map (`{UUID(k): Task.from_dict(v)}`). -/
def decodeTaskEntries (fields : List (String × JValue)) :
    Option (List (Nat × Task)) :=
  listMapM (fun p => do
    let task_id ← decNat p.1
    let task ← Task.from_dict p.2
    pure (task_id, task)) fields

/-- `Transaction` dataclass (transaction.py lines 59-91). -/
structure Transaction where
  id : Nat
  property_address : String := ""
  current_state : Option State := none
  state_history : List StateTransition := []
  tasks : List (Nat × Task) := []
  property_metadata : JValue := .obj []
  created_at : Int
  metadata : JValue := .obj []
  state_registry : Option StateRegistry := none

/-- `set_state_registry` (transaction.py lines 93-100). -/
def Transaction.set_state_registry (txn : Transaction)
    (registry : StateRegistry) : Transaction :=
  { txn with state_registry := some registry }

/-- The `Task(...)` construction plus due-date assignment of pass 1 of
`_create_tasks_from_templates` (transaction.py lines 162-172); the fresh
`uuid4()` id is `taskId`, `datetime.now()` is `now`. -/
def taskOfTemplate (template : TaskTemplate) (taskId : Nat) (now : Int) :
    Task :=
  { id := taskId
  , title := template.title
  , description := template.description
  , status := .pending
  , created_at := now
  , completed_at := none
  , assignee := template.assignee
  , due_date := template.days_until_due.map (fun d => now + d)
  , dependencies := []
  , metadata := template.metadata }

/-- Pass 1 of `_create_tasks_from_templates` (transaction.py lines
159-178): instantiate each template with a fresh id (`idBase`,
`idBase + 1`, ...), record the title-to-id mapping, insert into `tasks`. -/
def instantiatePass (templates : List TaskTemplate) (now : Int) (idBase : Nat)
    (template_to_task : List (String × Nat)) (tasks : List (Nat × Task)) :
    List (String × Nat) × List (Nat × Task) :=
  match templates with
  | [] => (template_to_task, tasks)
  | template :: rest =>
    let task := taskOfTemplate template idBase now
    instantiatePass rest now (idBase + 1)
      (dinsert template_to_task template.title task.id)
      (dinsert tasks task.id task)

/-- Pass 2 of `_create_tasks_from_templates` (transaction.py lines
180-189): for each template with declared dependencies, append the ids
the batch mapping resolves, silently skipping unresolved names.  The two
`none` fallthroughs are unreachable after pass 1 has run over the same
template list (there Python would raise `KeyError`). -/
def wirePass (templates : List TaskTemplate)
    (template_to_task : List (String × Nat)) (tasks : List (Nat × Task)) :
    List (Nat × Task) :=
  match templates with
  | [] => tasks
  | template :: rest =>
    let tasks' :=
      if template.dependencies.isEmpty then tasks
      else
        match dlookup template_to_task template.title with
        | none => tasks
        | some task_id =>
          match dlookup tasks task_id with
          | none => tasks
          | some task =>
            dinsert tasks task_id
              { task with dependencies :=
                  (task.dependencies ++
                    template.dependencies.filterMap
                      (fun dep_template_name =>
                        dlookup template_to_task dep_template_name)) }
    wirePass rest template_to_task tasks'

/-- `_create_tasks_from_templates` (transaction.py lines 152-189). -/
def Transaction.create_tasks_from_templates (txn : Transaction)
    (state : State) (now : Int) (idBase : Nat) : Transaction :=
  let res := instantiatePass state.task_templates now idBase [] txn.tasks
  { txn with tasks := wirePass state.task_templates res.1 res.2 }

/-- `transition_to` (transaction.py lines 102-150).  `Except.error`
models a raised `ValueError`; the `Bool` in the `ok` result is the
Python return value.  `datetime.now()` is `now`; the ids handed out by
`uuid4()` during template expansion start at `idBase`. -/
def Transaction.transition_to (txn : Transaction) (target_state_name : String)
    (notes : String) (auto_create_tasks : Bool) (now : Int) (idBase : Nat) :
    Except String (Bool × Transaction) :=
  match txn.state_registry with
  | none => .error "State registry not set. Call set_state_registry() first."
  | some registry =>
    match registry.get target_state_name with
    | none => .error ("Unknown state: " ++ target_state_name)
    | some target_state =>
      let allowed : Bool :=
        match txn.current_state with
        | some cs => cs.can_transition_to target_state_name
        | none => true
      if allowed then
        let transition : StateTransition :=
          { timestamp := now
          , from_state := txn.current_state.map State.name
          , to_state := target_state_name
          , notes := notes
          , metadata := .obj [] }
        let txn1 := { txn with
          state_history := txn.state_history ++ [transition]
          , current_state := some target_state }
        let txn2 :=
          if auto_create_tasks then
            txn1.create_tasks_from_templates target_state now idBase
          else txn1
        .ok (true, txn2)
      else .ok (false, txn)

/-- `add_task` (transaction.py lines 191-202). -/
def Transaction.add_task (txn : Transaction) (task : Task) :
    Transaction × Nat :=
  ({ txn with tasks := dinsert txn.tasks task.id task }, task.id)

/-- `get_task` (transaction.py lines 204-214). -/
def Transaction.get_task (txn : Transaction) (task_id : Nat) : Option Task :=
  dlookup txn.tasks task_id

/-- `get_tasks_by_status` (transaction.py lines 216-226). -/
def Transaction.get_tasks_by_status (txn : Transaction)
    (status : TaskStatus) : List Task :=
  (txn.tasks.map Prod.snd).filter (fun t => t.status = status)

/-- `get_pending_tasks` (transaction.py lines 228-238). -/
def Transaction.get_pending_tasks (txn : Transaction) : List Task :=
  (txn.tasks.map Prod.snd).filter
    (fun t => t.status = .pending && t.can_start txn.tasks)

/-- `get_state_path` (transaction.py lines 240-249). -/
def Transaction.get_state_path (txn : Transaction) : List String :=
  match txn.current_state with
  | some s => s.get_full_path
  | none => []

/-- `Transaction.to_dict` (transaction.py lines 251-267). -/
def Transaction.to_dict (txn : Transaction) : JValue :=
  .obj
    [ ("id", .str (encNat txn.id))
    , ("property_address", .str txn.property_address)
    , ("current_state",
        match txn.current_state with | some s => .str s.name | none => .null)
    , ("state_history", .arr (txn.state_history.map StateTransition.to_dict))
    , ("tasks", .obj (txn.tasks.map
        (fun p => (encNat p.1, p.2.to_dict))))
    , ("property_metadata", txn.property_metadata)
    , ("created_at", .str (encInt txn.created_at))
    , ("metadata", txn.metadata) ]

/-- `Transaction.from_dict` (transaction.py lines 269-306).  The
registry is attached to the result; `current_state` is resolved through
the registry only when the serialized name is truthy
(`if current_state_name:`), and `registry.get` may itself yield `none`. -/
def Transaction.from_dict (data : JValue) (state_registry : StateRegistry) :
    Option Transaction := do
  let id ← (data.getField "id").bind asStr >>= decNat
  let property_address ← (data.getField "property_address").bind asStr
  let state_history ←
    match data.getField "state_history" with
    | some (.arr l) => decodeTransitionList l
    | none => some []
    | some _ => none
  let tasks ←
    match data.getField "tasks" with
    | some (.obj fields) => decodeTaskEntries fields
    | none => some []
    | some _ => none
  let property_metadata := (data.getField "property_metadata").getD (.obj [])
  let created_at ← (data.getField "created_at").bind asStr >>= decInt
  let metadata := (data.getField "metadata").getD (.obj [])
  let current_state :=
    match data.getField "current_state" with
    | some (.str s) => if s = "" then none else state_registry.get s
    | _ => none
  pure
    { id := id
    , property_address := property_address
    , current_state := current_state
    , state_history := state_history
    , tasks := tasks
    , property_metadata := property_metadata
    , created_at := created_at
    , metadata := metadata
    , state_registry := some state_registry }

/-! ### Derived characterizations used by the theorem statements -/

/-- The batch mapping pass 1 builds when template titles are distinct:
the i-th template's title maps to the i-th fresh id. -/
def batchTitleMap : List TaskTemplate → Nat → List (String × Nat)
  | [], _ => []
  | t :: rest, idBase => (t.title, idBase) :: batchTitleMap rest (idBase + 1)

/-- The fresh task entries pass 1 appends, in creation order. -/
def newTasks : List TaskTemplate → Int → Nat → List (Nat × Task)
  | [], _, _ => []
  | t :: rest, now, idBase =>
    (idBase, taskOfTemplate t idBase now) :: newTasks rest now (idBase + 1)

/-- The cumulative effect of pass 2 on the task stored under key `k`. -/
def wireSpec (l : List TaskTemplate) (t2t : List (String × Nat)) (k : Nat)
    (tk : Task) : Task :=
  match l with
  | [] => tk
  | t :: rest =>
    wireSpec rest t2t k
      (if dlookup t2t t.title = some k then
        { tk with dependencies :=
            (tk.dependencies ++
              t.dependencies.filterMap (fun n => dlookup t2t n)) }
       else tk)

/-! ### Concrete inputs used by witnesses and the counterexample -/

def wStateB : State := .mk "b" "B" "" none [] [] [] (.obj [])

def wStateA : State := .mk "a" "A" "" none [] ["c"] [] (.obj [])

def wReg : StateRegistry := ⟨[("a", wStateA), ("b", wStateB)]⟩

def wTxnA : Transaction :=
  { id := 1, created_at := 0, current_state := some wStateA
  , state_registry := some wReg }

def wTxnNone : Transaction :=
  { id := 2, created_at := 0, state_registry := some wReg }

def wTxnNoReg : Transaction := { id := 3, created_at := 0 }

def wTmplA : TaskTemplate := { title := "Inspect" }

def wTmplB : TaskTemplate :=
  { title := "Repair", dependencies := ["Inspect", "Ghost"]
  , days_until_due := some 7 }

def wStateW : State := .mk "w" "W" "" none [] [] [wTmplA, wTmplB] (.obj [])

def wRegW : StateRegistry := ⟨[("w", wStateW)]⟩

def wTxnW : Transaction :=
  { id := 4, created_at := 0, state_registry := some wRegW }

def wTxnWAfter : Transaction :=
  match wTxnW.transition_to "w" "" true 5 50 with
  | .ok (_, t) => t
  | .error _ => wTxnW

def rtTask : Task :=
  { id := 7, title := "t", description := "d", status := .completed
  , created_at := 3, completed_at := some 9, assignee := some "al"
  , due_date := some (-2), dependencies := [7, 8], metadata := .str "m" }

def rtTransition : StateTransition :=
  { timestamp := -4, from_state := some "x", to_state := "y", notes := "n"
  , metadata := .num 2 }

def rtTxn : Transaction :=
  { id := 5
  , property_address := "addr"
  , current_state := some wStateA
  , state_history := [rtTransition]
  , tasks := [(7, rtTask)]
  , property_metadata := .boolean true
  , created_at := 1
  , metadata := .num 4
  , state_registry := some wReg }

def cexState : State := .mk "" "E" "" none [] [] [] (.obj [])

def cexReg : StateRegistry := ⟨[("", cexState)]⟩

def cexTxn : Transaction :=
  { id := 6, created_at := 0, current_state := some cexState
  , state_registry := some cexReg }

def cexTxnBroken : Transaction := { cexTxn with current_state := none }

def wTaskPending : Task := { id := 9, created_at := 0 }

def wChild : State :=
  .mk "kid" "K" "" (some wStateA) [] ["a"] [wTmplA] (.num 3)

def emptyReg : StateRegistry := ⟨[]⟩

/-! ## Lemmas: string codecs -/

theorem digitsVal_natDigitsLE : ∀ n : Nat, digitsVal (natDigitsLE n) = n
  | 0 => by rw [natDigitsLE]; rfl
  | n + 1 => by
    rw [natDigitsLE, digitsVal, digitsVal_natDigitsLE ((n + 1) / 10)]
    omega
decreasing_by exact Nat.div_lt_self (Nat.succ_pos n) (by decide)

theorem natDigitsLE_lt : ∀ n : Nat, ∀ d ∈ natDigitsLE n, d < 10
  | 0, d, h => by simp [natDigitsLE] at h
  | n + 1, d, h => by
    rw [natDigitsLE] at h
    rcases List.mem_cons.mp h with h1 | h1
    · omega
    · exact natDigitsLE_lt ((n + 1) / 10) d h1
decreasing_by exact Nat.div_lt_self (Nat.succ_pos n) (by decide)

theorem natDigitsLE_ne_nil (n : Nat) (h : n ≠ 0) : natDigitsLE n ≠ [] := by
  cases n with
  | zero => exact absurd rfl h
  | succ m => rw [natDigitsLE]; exact List.cons_ne_nil _ _

theorem charDigit10_digitChar10 (d : Nat) (h : d < 10) :
    charDigit10 (digitChar10 d) = some d := by
  interval_cases d <;> rfl

theorem digitChar10_ne_dash (d : Nat) (h : d < 10) : digitChar10 d ≠ '-' := by
  interval_cases d <;> decide

theorem listMapM_map {α β : Type} (f : α → β) (g : β → Option α)
    (l : List α) (h : ∀ a ∈ l, g (f a) = some a) :
    listMapM g (l.map f) = some l := by
  induction l with
  | nil => rfl
  | cons a as ih =>
    simp only [List.map_cons, listMapM]
    rw [h a (List.mem_cons_self a as), ih (fun x hx => h x (List.mem_cons_of_mem a hx))]

theorem charsOfNat_ne_nil (n : Nat) : charsOfNat n ≠ [] := by
  unfold charsOfNat
  split
  · exact List.cons_ne_nil _ _
  · next h => exact fun hc => natDigitsLE_ne_nil n h (List.map_eq_nil_iff.mp hc)

theorem decNatChars_charsOfNat (n : Nat) : decNatChars (charsOfNat n) = some n := by
  have hmain : listMapM charDigit10 ((natDigitsLE n).map digitChar10)
      = some (natDigitsLE n) :=
    listMapM_map digitChar10 charDigit10 _
      (fun d hd => charDigit10_digitChar10 d (natDigitsLE_lt n d hd))
  rcases Nat.eq_zero_or_pos n with h0 | hpos
  · subst h0; decide
  · have hne : ¬ n = 0 := by omega
    unfold charsOfNat
    rw [if_neg hne]
    rcases hd : natDigitsLE n with _ | ⟨d, ds⟩
    · exact absurd hd (natDigitsLE_ne_nil n hne)
    · rw [hd] at hmain
      rw [List.map_cons] at hmain ⊢
      rw [decNatChars, hmain]
      simp [← hd, digitsVal_natDigitsLE]

theorem charsOfNat_head_ne_dash (n : Nat) (c : Char) (cs : List Char)
    (h : charsOfNat n = c :: cs) : c ≠ '-' := by
  unfold charsOfNat at h
  split at h
  · cases h; decide
  · rcases hd : natDigitsLE n with _ | ⟨d, ds⟩
    · rw [hd] at h; simp at h
    · rw [hd] at h
      simp only [List.map_cons, List.cons.injEq] at h
      rw [← h.1]
      exact digitChar10_ne_dash d (natDigitsLE_lt n d (hd ▸ List.mem_cons_self d ds))

theorem decNat_encNat (n : Nat) : decNat (encNat n) = some n := by
  unfold decNat encNat
  exact decNatChars_charsOfNat n

theorem encNat_ne_empty (n : Nat) : encNat n ≠ "" := by
  unfold encNat
  intro h
  exact charsOfNat_ne_nil n
    (congrArg String.data h : charsOfNat n = ([] : List Char))

theorem decInt_encInt (i : Int) : decInt (encInt i) = some i := by
  unfold decInt encInt
  rcases lt_or_le i 0 with hneg | hpos
  · rw [if_pos hneg]
    show decIntChars ('-' :: charsOfNat i.natAbs) = some i
    rw [decIntChars, if_pos rfl, decNatChars_charsOfNat]
    have hv : -(i.natAbs : Int) = i := by omega
    exact congrArg some hv
  · rw [if_neg (by omega)]
    show decIntChars (charsOfNat i.toNat) = some i
    rcases hc : charsOfNat i.toNat with _ | ⟨c, cs⟩
    · exact absurd hc (charsOfNat_ne_nil _)
    · rw [decIntChars, if_neg (charsOfNat_head_ne_dash _ c cs hc), ← hc,
        decNatChars_charsOfNat]
      have hv : (i.toNat : Int) = i := by omega
      exact congrArg some hv

theorem encInt_ne_empty (i : Int) : encInt i ≠ "" := by
  unfold encInt
  split
  · intro h
    exact List.cons_ne_nil _ _
      (congrArg String.data h : ('-' :: charsOfNat i.natAbs) = ([] : List Char))
  · intro h
    exact charsOfNat_ne_nil _
      (congrArg String.data h : charsOfNat i.toNat = ([] : List Char))

/-! ## Lemmas: dictionaries -/

theorem dcontains_iff_mem_fst {κ α : Type} [DecidableEq κ] :
    ∀ (l : List (κ × α)) (k : κ), dcontains l k = true ↔ k ∈ l.map Prod.fst
  | [], k => by simp [dcontains]
  | p :: ps, k => by
    rw [dcontains]
    by_cases h : p.1 = k
    · rw [if_pos h]
      simp only [List.map_cons, List.mem_cons]
      constructor
      · intro _; exact Or.inl h.symm
      · intro _; trivial
    · rw [if_neg h]
      simp only [List.map_cons, List.mem_cons]
      rw [dcontains_iff_mem_fst ps k]
      constructor
      · exact Or.inr
      · rintro (h1 | h1)
        · exact absurd h1.symm h
        · exact h1

theorem dlookup_eq_none_of_not_mem {κ α : Type} [DecidableEq κ]
    (l : List (κ × α)) (k : κ) (h : k ∉ l.map Prod.fst) :
    dlookup l k = none := by
  induction l with
  | nil => rfl
  | cons p ps ih =>
    simp only [List.map_cons, List.mem_cons] at h
    push_neg at h
    simp only [dlookup]
    rw [if_neg (fun hk => h.1 hk.symm)]
    exact ih h.2

theorem dlookup_append_right {κ α : Type} [DecidableEq κ]
    (l1 l2 : List (κ × α)) (k : κ) (h : k ∉ l1.map Prod.fst) :
    dlookup (l1 ++ l2) k = dlookup l2 k := by
  induction l1 with
  | nil => rfl
  | cons p ps ih =>
    simp only [List.map_cons, List.mem_cons] at h
    push_neg at h
    simp only [List.cons_append, dlookup]
    rw [if_neg (fun hk => h.1 hk.symm)]
    exact ih h.2

theorem dlookup_mem {κ α : Type} [DecidableEq κ] (k : κ) (v : α) :
    ∀ l : List (κ × α), dlookup l k = some v → (k, v) ∈ l
  | [], h => by simp [dlookup] at h
  | p :: ps, h => by
    rw [dlookup] at h
    split at h
    · next heq =>
      injection h with hv
      rw [← heq, ← hv]
      simpa using List.mem_cons_self p ps
    · exact List.mem_cons_of_mem p (dlookup_mem k v ps h)

theorem dinsert_of_not_contains {κ α : Type} [DecidableEq κ]
    (l : List (κ × α)) (k : κ) (v : α) (h : k ∉ l.map Prod.fst) :
    dinsert l k v = l ++ [(k, v)] := by
  unfold dinsert
  rw [if_neg (by
    intro hc
    exact h ((dcontains_iff_mem_fst l k).mp hc))]

theorem dlookup_mapReplace_self {κ α : Type} [DecidableEq κ] (k : κ) (v : α) :
    ∀ l : List (κ × α), dcontains l k = true →
      dlookup (l.map (fun p => if p.1 = k then (k, v) else p)) k = some v
  | [], hc => by simp [dcontains] at hc
  | p :: ps, hc => by
    by_cases hk : p.1 = k
    · simp [dlookup, hk]
    · have hc' : dcontains ps k = true := by
        simpa [dcontains, hk] using hc
      simp only [List.map_cons, if_neg hk, dlookup]
      exact dlookup_mapReplace_self k v ps hc'

theorem dlookup_mapReplace_ne {κ α : Type} [DecidableEq κ] (k k' : κ) (v : α)
    (h : k' ≠ k) :
    ∀ l : List (κ × α),
      dlookup (l.map (fun p => if p.1 = k then (k, v) else p)) k' = dlookup l k'
  | [] => rfl
  | p :: ps => by
    by_cases hk : p.1 = k
    · simp only [List.map_cons, if_pos hk, dlookup]
      rw [if_neg (fun he => h he.symm), if_neg (by rw [hk]; exact fun he => h he.symm)]
      exact dlookup_mapReplace_ne k k' v h ps
    · simp only [List.map_cons, if_neg hk, dlookup]
      by_cases hk' : p.1 = k'
      · rw [if_pos hk', if_pos hk']
      · rw [if_neg hk', if_neg hk']
        exact dlookup_mapReplace_ne k k' v h ps

theorem dlookup_dinsert_self {κ α : Type} [DecidableEq κ]
    (l : List (κ × α)) (k : κ) (v : α) :
    dlookup (dinsert l k v) k = some v := by
  unfold dinsert
  split
  · next hc => exact dlookup_mapReplace_self k v l hc
  · next hc =>
    have hmem : k ∉ l.map Prod.fst :=
      fun hm => hc ((dcontains_iff_mem_fst l k).mpr hm)
    rw [dlookup_append_right l [(k, v)] k hmem]
    simp [dlookup]

theorem dlookup_append_single_ne {κ α : Type} [DecidableEq κ]
    (k k' : κ) (v : α) (h : k' ≠ k) :
    ∀ l : List (κ × α), dlookup (l ++ [(k, v)]) k' = dlookup l k'
  | [] => by
    simp only [List.nil_append, dlookup]
    rw [if_neg (fun he => h (Eq.symm he))]
  | p :: ps => by
    simp only [List.cons_append, dlookup]
    split
    · rfl
    · exact dlookup_append_single_ne k k' v h ps

theorem dlookup_dinsert_ne {κ α : Type} [DecidableEq κ]
    (l : List (κ × α)) (k k' : κ) (v : α) (h : k' ≠ k) :
    dlookup (dinsert l k v) k' = dlookup l k' := by
  unfold dinsert
  split
  · exact dlookup_mapReplace_ne k k' v h l
  · exact dlookup_append_single_ne k k' v h l

theorem mapReplace_map_fst {κ α : Type} [DecidableEq κ] (k : κ) (v : α) :
    ∀ l : List (κ × α),
      (l.map (fun p => if p.1 = k then (k, v) else p)).map Prod.fst
        = l.map Prod.fst
  | [] => rfl
  | p :: ps => by
    by_cases hk : p.1 = k
    · simp only [List.map_cons, if_pos hk]
      rw [mapReplace_map_fst k v ps]
      simp [hk]
    · simp only [List.map_cons, if_neg hk]
      rw [mapReplace_map_fst k v ps]

theorem dinsert_map_fst_of_contains {κ α : Type} [DecidableEq κ]
    (l : List (κ × α)) (k : κ) (v : α) (h : dcontains l k = true) :
    (dinsert l k v).map Prod.fst = l.map Prod.fst := by
  unfold dinsert
  rw [if_pos h]
  exact mapReplace_map_fst k v l

theorem dcontains_eq_isSome_dlookup {κ α : Type} [DecidableEq κ]
    (l : List (κ × α)) (k : κ) :
    dcontains l k = (dlookup l k).isSome := by
  induction l with
  | nil => rfl
  | cons p ps ih =>
    simp only [dcontains, dlookup]
    split
    · rfl
    · exact ih

/-! ## Lemmas: serialization round trips -/

theorem TaskStatus.ofValue_value (st : TaskStatus) :
    TaskStatus.ofValue st.value = some st := by
  cases st <;> rfl

theorem truthy_str_encInt (i : Int) : (JValue.str (encInt i)).truthy = true := by
  simp [JValue.truthy, encInt_ne_empty i]

theorem decodeIdList_enc (l : List Nat) :
    decodeIdList (l.map (fun d => JValue.str (encNat d))) = some l :=
  listMapM_map _ _ l (fun a _ => by simp [asStr, decNat_encNat])

theorem task_from_to (t : Task) : Task.from_dict t.to_dict = some t := by
  obtain ⟨id, title, description, status, created_at, completed_at, assignee,
    due_date, dependencies, metadata⟩ := t
  rcases completed_at with _ | c <;> rcases assignee with _ | a <;>
    rcases due_date with _ | dd <;>
    simp [Task.to_dict, Task.from_dict, JValue.getField, lookupField, asStr,
      decNat_encNat, decInt_encInt, TaskStatus.ofValue_value, JValue.truthy,
      truthy_str_encInt, decodeIdList_enc, encInt_ne_empty, Option.bind]

theorem sttr_from_to (t : StateTransition) :
    StateTransition.from_dict t.to_dict = some t := by
  obtain ⟨timestamp, from_state, to_state, notes, metadata⟩ := t
  rcases from_state with _ | f <;>
    simp [StateTransition.to_dict, StateTransition.from_dict, JValue.getField,
      lookupField, asStr, decInt_encInt, Option.bind]

theorem decodeStrList_enc (l : List String) :
    decodeStrList (l.map JValue.str) = some l :=
  listMapM_map _ _ l (fun a _ => rfl)

theorem template_from_to (tt : TaskTemplate) :
    TaskTemplate.from_dict tt.to_dict = some tt := by
  obtain ⟨title, description, assignee, days, deps, metadata⟩ := tt
  rcases assignee with _ | a <;> rcases days with _ | d <;>
    simp [TaskTemplate.to_dict, TaskTemplate.from_dict, JValue.getField,
      lookupField, asStr, decodeStrList_enc, Option.bind]

theorem decodeTransitionList_enc (l : List StateTransition) :
    decodeTransitionList (l.map StateTransition.to_dict) = some l :=
  listMapM_map _ _ l (fun a _ => sttr_from_to a)

theorem decodeTemplateList_enc (l : List TaskTemplate) :
    decodeTemplateList (l.map TaskTemplate.to_dict) = some l :=
  listMapM_map _ _ l (fun a _ => template_from_to a)

theorem decodeTaskEntries_enc (l : List (Nat × Task)) :
    decodeTaskEntries (l.map (fun p => (encNat p.1, p.2.to_dict))) = some l :=
  listMapM_map _ _ l (fun p _ => by
    simp [decNat_encNat, task_from_to, Option.bind])

/-- What `Transaction.from_dict` recovers from `to_dict` output, for any
registry: every field round-trips except that `current_state` is
re-resolved through the registry behind a truthiness guard, and the
registry reference is replaced by the supplied one. -/
theorem txn_from_to (x : Transaction) (reg : StateRegistry) :
    Transaction.from_dict x.to_dict reg = some { x with
      current_state :=
        (match x.current_state with
          | some s => if s.name = "" then none else reg.get s.name
          | none => none)
      , state_registry := some reg } := by
  obtain ⟨id, addr, cs, hist, tasks, pmeta, created, meta, sreg⟩ := x
  rcases cs with _ | s <;>
    simp [Transaction.to_dict, Transaction.from_dict, JValue.getField,
      lookupField, asStr, decNat_encNat, decInt_encInt,
      decodeTransitionList_enc, decodeTaskEntries_enc, Option.bind]

/-- What `State.from_dict` recovers from `to_dict` output: `children` is
always reset and `parent` is re-resolved behind both a truthiness guard
and a registry-membership check. -/
theorem state_from_to (s : State) (reg : StateRegistry) :
    State.from_dict s.to_dict reg = some (.mk s.name s.display_name
      s.description
      (match s.parent with
        | some p =>
          if p.name = "" then none
          else if reg.containsName p.name then reg.get p.name else none
        | none => none)
      [] s.allowed_transitions s.task_templates s.metadata) := by
  obtain ⟨name, dn, desc, parent, children, at_, tt, md⟩ := s
  rcases parent with _ | p <;>
    simp [State.to_dict, State.from_dict, JValue.getField, lookupField,
      asStr, decodeStrList_enc, decodeTemplateList_enc, State.name,
      State.display_name, State.description, State.parent,
      State.allowed_transitions, State.task_templates, State.metadata,
      Option.bind]

/-! ## Lemmas: template expansion -/

theorem taskOfTemplate_id (template : TaskTemplate) (taskId : Nat) (now : Int) :
    (taskOfTemplate template taskId now).id = taskId := rfl

theorem not_mem_fst_of_lt (tasks : List (Nat × Task)) (m k : Nat)
    (h : ∀ p ∈ tasks, p.1 < m) (hk : m ≤ k) : k ∉ tasks.map Prod.fst := by
  intro hm
  rcases List.mem_map.mp hm with ⟨p, hp, hfst⟩
  have := h p hp
  omega

theorem instantiatePass_snd :
    ∀ (templates : List TaskTemplate) (now : Int) (idBase : Nat)
      (t2t : List (String × Nat)) (tasks : List (Nat × Task)),
      (∀ p ∈ tasks, p.1 < idBase) →
      (instantiatePass templates now idBase t2t tasks).2
        = tasks ++ newTasks templates now idBase
  | [], now, idBase, t2t, tasks, _ => by simp [instantiatePass, newTasks]
  | template :: rest, now, idBase, t2t, tasks, h => by
    have hnot : (idBase : Nat) ∉ tasks.map Prod.fst :=
      not_mem_fst_of_lt tasks idBase idBase h (le_refl _)
    have hfresh' :
        ∀ p ∈ tasks ++ [(idBase, taskOfTemplate template idBase now)],
          p.1 < idBase + 1 := by
      intro p hp
      rcases List.mem_append.mp hp with hp1 | hp1
      · have := h p hp1; omega
      · rcases List.mem_singleton.mp hp1 with rfl
        omega
    simp only [instantiatePass, taskOfTemplate_id]
    rw [dinsert_of_not_contains tasks idBase _ hnot,
      instantiatePass_snd rest now (idBase + 1) _ _ hfresh']
    simp [newTasks, List.append_assoc]

theorem instantiatePass_fst :
    ∀ (templates : List TaskTemplate) (now : Int) (idBase : Nat)
      (t2t : List (String × Nat)) (tasks : List (Nat × Task)),
      (templates.map TaskTemplate.title).Nodup →
      (∀ t ∈ templates, t.title ∉ t2t.map Prod.fst) →
      (instantiatePass templates now idBase t2t tasks).1
        = t2t ++ batchTitleMap templates idBase
  | [], now, idBase, t2t, tasks, _, _ => by simp [instantiatePass, batchTitleMap]
  | template :: rest, now, idBase, t2t, tasks, hnd, hacc => by
    have hnotacc : template.title ∉ t2t.map Prod.fst :=
      hacc template (List.mem_cons_self _ _)
    have hpair : (∀ x ∈ rest, ¬ x.title = template.title) ∧
        (rest.map TaskTemplate.title).Nodup := by simpa using hnd
    have hacc' :
        ∀ t ∈ rest, t.title ∉ (t2t ++ [(template.title, idBase)]).map Prod.fst := by
      intro t ht hm
      rw [List.map_append] at hm
      rcases List.mem_append.mp hm with hm1 | hm1
      · exact hacc t (List.mem_cons_of_mem _ ht) hm1
      · simp only [List.map_cons, List.map_nil, List.mem_singleton] at hm1
        exact hpair.1 t ht hm1
    simp only [instantiatePass, taskOfTemplate_id]
    rw [dinsert_of_not_contains t2t template.title _ hnotacc,
      instantiatePass_fst rest now (idBase + 1) _ _ hpair.2 hacc']
    simp [batchTitleMap, List.append_assoc]

theorem newTasks_map_fst :
    ∀ (templates : List TaskTemplate) (now : Int) (idBase : Nat),
      (newTasks templates now idBase).map Prod.fst
        = (List.range templates.length).map (idBase + ·)
  | [], now, idBase => by simp [newTasks]
  | t :: rest, now, idBase => by
    simp only [newTasks, List.map_cons, List.length_cons,
      newTasks_map_fst rest now (idBase + 1)]
    rw [List.range_succ_eq_map]
    have harith : ∀ i : Nat, (idBase + 1) + i = idBase + (i + 1) := by omega
    simp [List.map_map, Function.comp_def, harith]

theorem newTasks_dlookup :
    ∀ (templates : List TaskTemplate) (now : Int) (idBase i : Nat)
      (tmpl : TaskTemplate), templates[i]? = some tmpl →
      dlookup (newTasks templates now idBase) (idBase + i)
        = some (taskOfTemplate tmpl (idBase + i) now)
  | [], now, idBase, i, tmpl, h => by simp at h
  | t :: rest, now, idBase, i, tmpl, h => by
    cases i with
    | zero =>
      simp only [List.getElem?_cons_zero, Option.some_inj] at h
      subst h
      simp [newTasks, dlookup]
    | succ j =>
      simp only [List.getElem?_cons_succ] at h
      have hrec := newTasks_dlookup rest now (idBase + 1) j tmpl h
      simp only [newTasks, dlookup]
      rw [if_neg (by omega)]
      have harith : (idBase + 1) + j = idBase + (j + 1) := by omega
      rw [← harith]
      exact hrec

theorem wirePass_map_fst :
    ∀ (l : List TaskTemplate) (t2t : List (String × Nat))
      (tasks : List (Nat × Task)),
      (wirePass l t2t tasks).map Prod.fst = tasks.map Prod.fst
  | [], t2t, tasks => rfl
  | t :: rest, t2t, tasks => by
    simp only [wirePass]
    by_cases hemp : t.dependencies.isEmpty
    · rw [if_pos hemp]
      exact wirePass_map_fst rest t2t tasks
    · rw [if_neg hemp]
      rcases h1 : dlookup t2t t.title with _ | tid
      · exact wirePass_map_fst rest t2t tasks
      · dsimp only
        rcases h2 : dlookup tasks tid with _ | task
        · exact wirePass_map_fst rest t2t tasks
        · rw [wirePass_map_fst rest t2t _]
          exact dinsert_map_fst_of_contains tasks tid _
            (by rw [dcontains_eq_isSome_dlookup, h2]; rfl)

theorem wirePass_dlookup :
    ∀ (l : List TaskTemplate) (t2t : List (String × Nat))
      (tasks : List (Nat × Task)) (k : Nat) (tk : Task),
      dlookup tasks k = some tk →
      dlookup (wirePass l t2t tasks) k = some (wireSpec l t2t k tk)
  | [], t2t, tasks, k, tk, h => by simpa [wirePass, wireSpec] using h
  | t :: rest, t2t, tasks, k, tk, h => by
    simp only [wirePass, wireSpec]
    by_cases hemp : t.dependencies.isEmpty
    · rw [if_pos hemp]
      have hnil : t.dependencies = [] := List.isEmpty_iff.mp hemp
      rw [hnil]
      simp only [List.filterMap_nil, List.append_nil]
      rw [ite_self]
      exact wirePass_dlookup rest t2t tasks k tk h
    · rw [if_neg hemp]
      rcases h1 : dlookup t2t t.title with _ | tid
      · rw [if_neg (by simp)]
        exact wirePass_dlookup rest t2t tasks k tk h
      · dsimp only
        rcases h2 : dlookup tasks tid with _ | task
        · by_cases htid : tid = k
          · rw [htid] at h2
            rw [h2] at h
            exact absurd h (by simp)
          · rw [if_neg (by simpa using htid)]
            exact wirePass_dlookup rest t2t tasks k tk h
        · by_cases htid : tid = k
          · rw [htid] at h2 ⊢
            have htask : task = tk := Option.some.inj (h2.symm.trans h)
            subst htask
            rw [if_pos rfl]
            exact wirePass_dlookup rest t2t _ k _
              (dlookup_dinsert_self tasks k _)
          · rw [if_neg (by simpa using htid)]
            refine wirePass_dlookup rest t2t _ k tk ?_
            rw [dlookup_dinsert_ne tasks tid k _ (fun he => htid he.symm)]
            exact h

theorem wireSpec_fields :
    ∀ (l : List TaskTemplate) (t2t : List (String × Nat)) (k : Nat) (tk : Task),
      ∃ deps, wireSpec l t2t k tk = { tk with dependencies := deps }
  | [], t2t, k, tk => ⟨tk.dependencies, rfl⟩
  | t :: rest, t2t, k, tk => by
    rw [wireSpec]
    by_cases hc : dlookup t2t t.title = some k
    · rw [if_pos hc]
      rcases wireSpec_fields rest t2t k
        { tk with dependencies :=
            (tk.dependencies ++
              t.dependencies.filterMap (fun n => dlookup t2t n)) } with ⟨deps, hd⟩
      exact ⟨deps, hd⟩
    · rw [if_neg hc]
      exact wireSpec_fields rest t2t k tk

theorem wireSpec_no_hit :
    ∀ (l : List TaskTemplate) (t2t : List (String × Nat)) (k : Nat) (tk : Task),
      (∀ t ∈ l, dlookup t2t t.title ≠ some k) → wireSpec l t2t k tk = tk
  | [], t2t, k, tk, _ => rfl
  | t :: rest, t2t, k, tk, h => by
    rw [wireSpec, if_neg (h t (List.mem_cons_self _ _))]
    exact wireSpec_no_hit rest t2t k tk
      (fun t' ht' => h t' (List.mem_cons_of_mem _ ht'))

theorem wireSpec_append :
    ∀ (l1 l2 : List TaskTemplate) (t2t : List (String × Nat)) (k : Nat)
      (tk : Task),
      wireSpec (l1 ++ l2) t2t k tk = wireSpec l2 t2t k (wireSpec l1 t2t k tk)
  | [], l2, t2t, k, tk => rfl
  | t :: rest, l2, t2t, k, tk => by
    rw [List.cons_append, wireSpec, wireSpec]
    exact wireSpec_append rest l2 t2t k _

theorem batchTitleMap_dlookup_of_get :
    ∀ (templates : List TaskTemplate) (idBase j : Nat) (tmpl : TaskTemplate),
      (templates.map TaskTemplate.title).Nodup → templates[j]? = some tmpl →
      dlookup (batchTitleMap templates idBase) tmpl.title = some (idBase + j)
  | [], idBase, j, tmpl, _, hj => by simp at hj
  | t :: rest, idBase, j, tmpl, hnd, hj => by
    cases j with
    | zero =>
      simp only [List.getElem?_cons_zero, Option.some_inj] at hj
      subst hj
      simp [batchTitleMap, dlookup]
    | succ j =>
      simp only [List.getElem?_cons_succ] at hj
      have hmem : tmpl ∈ rest := by
        rcases List.getElem?_eq_some.mp hj with ⟨hlt, hrf⟩
        exact hrf ▸ rest.getElem_mem hlt
      have hpair : (∀ x ∈ rest, ¬ x.title = t.title) ∧
          (rest.map TaskTemplate.title).Nodup := by simpa using hnd
      have hne : ¬ t.title = tmpl.title :=
        fun he => hpair.1 tmpl hmem he.symm
      simp only [batchTitleMap, dlookup]
      rw [if_neg hne]
      have hrec := batchTitleMap_dlookup_of_get rest (idBase + 1) j tmpl hpair.2 hj
      rw [hrec]
      congr 1
      omega

theorem batchTitleMap_dlookup_none :
    ∀ (templates : List TaskTemplate) (idBase : Nat) (n : String),
      n ∉ templates.map TaskTemplate.title →
      dlookup (batchTitleMap templates idBase) n = none
  | [], idBase, n, _ => rfl
  | t :: rest, idBase, n, h => by
    simp only [List.map_cons, List.mem_cons] at h
    push_neg at h
    simp only [batchTitleMap, dlookup]
    rw [if_neg (fun he => h.1 he.symm)]
    exact batchTitleMap_dlookup_none rest (idBase + 1) n h.2

theorem wireSpec_batch (templates : List TaskTemplate) (idBase i : Nat)
    (tmpl : TaskTemplate) (tk : Task)
    (hNodup : (templates.map TaskTemplate.title).Nodup)
    (hi : templates[i]? = some tmpl) :
    wireSpec templates (batchTitleMap templates idBase) (idBase + i) tk
      = { tk with dependencies :=
          (tk.dependencies ++ tmpl.dependencies.filterMap
            (fun n => dlookup (batchTitleMap templates idBase) n)) } := by
  have hlen : i < templates.length := by
    rcases List.getElem?_eq_some.mp hi with ⟨hlt, _⟩
    exact hlt
  set T2T := batchTitleMap templates idBase with hT2T
  have hsplit : templates = templates.take i ++ tmpl :: templates.drop (i + 1) := by
    conv_lhs => rw [← List.take_append_drop i templates]
    congr 1
    rcases List.getElem?_eq_some.mp hi with ⟨hlt, hrf⟩
    rw [List.drop_eq_getElem_cons hlt, hrf]
  have htake : ∀ t ∈ templates.take i, dlookup T2T t.title ≠ some (idBase + i) := by
    intro t ht
    rcases List.mem_iff_getElem?.mp ht with ⟨j, hj⟩
    have hjlt : j < i := by
      rcases List.getElem?_eq_some.mp hj with ⟨hlt, _⟩
      rw [List.length_take] at hlt
      omega
    have hj' : templates[j]? = some t := by
      rw [List.getElem?_take, if_pos hjlt] at hj
      exact hj
    rw [hT2T, batchTitleMap_dlookup_of_get templates idBase j t hNodup hj']
    intro hcontra
    have := Option.some.inj hcontra
    omega
  have hdrop : ∀ t ∈ templates.drop (i + 1),
      dlookup T2T t.title ≠ some (idBase + i) := by
    intro t ht
    rcases List.mem_iff_getElem?.mp ht with ⟨m, hm⟩
    have hm' : templates[(i + 1) + m]? = some t := by
      rw [List.getElem?_drop] at hm
      exact hm
    rw [hT2T, batchTitleMap_dlookup_of_get templates idBase _ t hNodup hm']
    intro hcontra
    have := Option.some.inj hcontra
    omega
  have hstep : dlookup T2T tmpl.title = some (idBase + i) := by
    rw [hT2T]
    exact batchTitleMap_dlookup_of_get templates idBase i tmpl hNodup hi
  conv_lhs => rw [hsplit]
  rw [wireSpec_append, wireSpec_no_hit _ _ _ _ htake, wireSpec, if_pos hstep,
    wireSpec_no_hit _ _ _ _ hdrop]

/-- Characterization of `_create_tasks_from_templates` under fresh ids:
the task-map keys gain exactly one fresh id per template, and the entry
stored under the i-th fresh id is the i-th instantiated task as rewired
by pass 2. -/
theorem create_tasks_spec (txn : Transaction) (st : State) (now : Int)
    (idBase : Nat) (hfresh : ∀ p ∈ txn.tasks, p.1 < idBase) :
    ((txn.create_tasks_from_templates st now idBase).tasks.map Prod.fst
        = txn.tasks.map Prod.fst
          ++ (List.range st.task_templates.length).map (idBase + ·)) ∧
    (∀ i tmpl, st.task_templates[i]? = some tmpl →
      dlookup (txn.create_tasks_from_templates st now idBase).tasks (idBase + i)
        = some (wireSpec st.task_templates
            (instantiatePass st.task_templates now idBase [] txn.tasks).1
            (idBase + i) (taskOfTemplate tmpl (idBase + i) now))) := by
  constructor
  · show (wirePass st.task_templates _ _).map Prod.fst = _
    rw [wirePass_map_fst, instantiatePass_snd _ _ _ _ _ hfresh,
      List.map_append, newTasks_map_fst]
  · intro i tmpl hi
    show dlookup (wirePass st.task_templates _ _) (idBase + i) = _
    rw [wirePass_dlookup _ _ _ _ _ ?_]
    rw [instantiatePass_snd _ _ _ _ _ hfresh,
      dlookup_append_right _ _ _
        (not_mem_fst_of_lt _ idBase _ hfresh (by omega)),
      newTasks_dlookup _ _ _ i tmpl hi]

/-- A `transition_to` call with `auto_create_tasks = true` that returns
`ok (true, txn')` produced `txn'` by appending the audit record, swapping
the current state, and running template expansion. -/
theorem transition_to_ok_true (txn txn' : Transaction) (reg : StateRegistry)
    (st : State) (target_state_name notes : String) (now : Int) (idBase : Nat)
    (hreg : txn.state_registry = some reg)
    (hst : reg.get target_state_name = some st)
    (hok : txn.transition_to target_state_name notes true now idBase
      = .ok (true, txn')) :
    txn' = Transaction.create_tasks_from_templates
      { txn with
        state_history := txn.state_history ++
          [{ timestamp := now
           , from_state := txn.current_state.map State.name
           , to_state := target_state_name
           , notes := notes
           , metadata := .obj [] }]
        , current_state := some st } st now idBase := by
  unfold Transaction.transition_to at hok
  rw [hreg] at hok
  dsimp only at hok
  rw [hst] at hok
  dsimp only at hok
  split at hok
  · rw [hreg]
    simp only [if_true, Except.ok.injEq, Prod.mk.injEq, true_and] at hok
    exact hok.symm
  · simp at hok

/-! ## Claim theorems -/

theorem can_transition_to_iff (s : State) (n : String) :
    s.can_transition_to n = true ↔ n ∈ s.allowed_transitions := by
  unfold State.can_transition_to
  exact List.elem_iff

/-- C1: with a registry attached, a current state A, and a registered
target B whose name is not in A's `allowed_transitions`,
`transition_to(B)` returns False and returns the transaction exactly as
it was: `current_state`, `state_history` and `tasks` are all unchanged
(no history entry appended, no task created). -/
theorem claim1_transition_gating (txn : Transaction) (reg : StateRegistry)
    (a b : State) (bname notes : String) (auto : Bool) (now : Int)
    (idBase : Nat)
    (hreg : txn.state_registry = some reg)
    (hcur : txn.current_state = some a)
    (hb : reg.get bname = some b)
    (hnot : bname ∉ a.allowed_transitions) :
    txn.transition_to bname notes auto now idBase = .ok (false, txn) := by
  have hcant : a.can_transition_to bname = false := by
    cases hco : a.can_transition_to bname
    · rfl
    · exact absurd ((can_transition_to_iff a bname).mp hco) hnot
  simp [Transaction.transition_to, hreg, hb, hcur, hcant]

/-- C1 witness at a concrete transaction. -/
theorem claim1_transition_gating_witness :
    wTxnA.transition_to "b" "" true 0 10 = .ok (false, wTxnA) :=
  claim1_transition_gating wTxnA wReg wStateA wStateB "b" "" true 0 10
    rfl rfl rfl (by decide)

/-- C4: from an unset current_state, a transition to any registered
state succeeds regardless of `allowed_transitions`: it returns True,
appends one StateTransition with null `from_state` and the target's name
as `to_state`, and sets `current_state` to the target state. -/
theorem claim4_first_transition_bypass (txn : Transaction)
    (reg : StateRegistry) (t : State) (target_state_name notes : String)
    (auto : Bool) (now : Int) (idBase : Nat)
    (hreg : txn.state_registry = some reg)
    (hcur : txn.current_state = none)
    (ht : reg.get target_state_name = some t)
    (hwf : ∀ p ∈ reg.states, p.2.name = p.1) :
    (txn.transition_to target_state_name notes auto now idBase).toOption.map
        (fun r => (r.1, r.2.state_history, r.2.current_state))
      = some (true,
          txn.state_history ++
            [{ timestamp := now, from_state := none, to_state := t.name
             , notes := notes, metadata := .obj [] }],
          some t) := by
  have hname : t.name = target_state_name :=
    hwf (target_state_name, t) (dlookup_mem _ _ _ ht)
  subst hname
  cases auto <;>
    simp [Transaction.transition_to, hreg, ht, hcur, Except.toOption,
      Transaction.create_tasks_from_templates]

/-- C4 witness at a concrete transaction. -/
theorem claim4_first_transition_bypass_witness :
    (wTxnNone.transition_to "a" "" true 0 20).toOption.map
        (fun r => (r.1, r.2.state_history, r.2.current_state))
      = some (true,
          wTxnNone.state_history ++
            [{ timestamp := 0, from_state := none, to_state := wStateA.name
             , notes := "", metadata := .obj [] }],
          some wStateA) :=
  claim4_first_transition_bypass wTxnNone wReg wStateA "a" "" true 0 20
    rfl rfl rfl (by decide)

/-- C5: `transition_to` raises (modelled as `Except.error`) exactly when
no registry is attached or the target name is unregistered; in the pure
embedding an error result carries no mutated transaction, matching the
source where both raises happen before any mutation. -/
theorem claim5_config_errors (txn : Transaction)
    (target_state_name notes : String) (auto : Bool) (now : Int)
    (idBase : Nat) :
    (∃ e, txn.transition_to target_state_name notes auto now idBase
        = .error e)
      ↔ (txn.state_registry = none ∨
          ∃ reg, txn.state_registry = some reg ∧
            reg.get target_state_name = none) := by
  rcases hr : txn.state_registry with _ | reg
  · simp only [Transaction.transition_to, hr]
    constructor
    · intro _
      exact Or.inl (by trivial)
    · intro _
      exact ⟨_, rfl⟩
  · rcases hg : reg.get target_state_name with _ | st
    · simp only [Transaction.transition_to, hr, hg]
      constructor
      · intro _
        exact Or.inr ⟨reg, by trivial, hg⟩
      · intro _
        exact ⟨_, rfl⟩
    · simp only [Transaction.transition_to, hr, hg]
      constructor
      · rintro ⟨e, he⟩
        split at he <;> simp at he
      · rintro (h | ⟨reg', hreg', hget⟩)
        · simp at h
        · injection hreg' with h3
          subst h3
          rw [hget] at hg
          simp at hg

/-- C5 witness: a transaction without a registry errors. -/
theorem claim5_config_errors_witness :
    ∃ e, wTxnNoReg.transition_to "a" "" true 0 0 = .error e :=
  (claim5_config_errors wTxnNoReg "a" "" true 0 0).mpr (Or.inl rfl)

theorem transitionErrors_eq_nil (r : StateRegistry) (sname : String) :
    ∀ ts : List String,
      transitionErrors r sname ts = [] ↔ ∀ t ∈ ts, r.containsName t = true
  | [] => by simp [transitionErrors]
  | t :: rest => by
    by_cases hc : r.containsName t
    · have he : transitionErrors r sname (t :: rest)
          = transitionErrors r sname rest := by
        simp [transitionErrors, List.filterMap_cons, hc]
      rw [he, transitionErrors_eq_nil r sname rest, List.forall_mem_cons]
      simp [hc]
    · simp [transitionErrors, List.filterMap_cons, hc, List.forall_mem_cons]

theorem transitionErrors_length (r : StateRegistry) (sname : String) :
    ∀ ts : List String,
      (transitionErrors r sname ts).length
        = (ts.filter (fun t => !(r.containsName t))).length
  | [] => rfl
  | t :: rest => by
    by_cases hc : r.containsName t <;>
      simp [transitionErrors, List.filterMap_cons, List.filter_cons, hc,
        ← transitionErrors_length r sname rest]

theorem validateAux_eq_nil (r : StateRegistry) :
    ∀ l : List (String × State),
      validateAux r l = [] ↔
        ∀ p ∈ l, ∀ tname ∈ p.2.allowed_transitions,
          r.containsName tname = true
  | [] => by simp [validateAux]
  | p :: ps => by
    simp only [validateAux, List.append_eq_nil, validateAux_eq_nil r ps,
      transitionErrors_eq_nil r p.2.name p.2.allowed_transitions]
    rw [List.forall_mem_cons]

theorem validateAux_length (r : StateRegistry) :
    ∀ l : List (String × State),
      (validateAux r l).length
        = (l.map (fun p => (p.2.allowed_transitions.filter
            (fun tname => !(r.containsName tname))).length)).sum
  | [] => rfl
  | p :: ps => by
    simp [validateAux, List.length_append, transitionErrors_length,
      validateAux_length r ps]

/-- C7: `validate_transitions()` returns a non-empty list iff some
registered state's `allowed_transitions` holds a name absent from the
registry, with one error entry per such (state, target) pair (the length
equals the count of offending pairs), empty when consistent. -/
theorem claim7_validation_completeness (r : StateRegistry) :
    (r.validate_transitions ≠ [] ↔
      ∃ p ∈ r.states, ∃ tname ∈ p.2.allowed_transitions,
        r.containsName tname = false) ∧
    r.validate_transitions.length
      = (r.states.map (fun p => (p.2.allowed_transitions.filter
          (fun tname => !(r.containsName tname))).length)).sum := by
  constructor
  · rw [Ne, show r.validate_transitions = validateAux r r.states from rfl,
      validateAux_eq_nil r r.states]
    constructor
    · intro h
      push_neg at h
      rcases h with ⟨p, hp, t, ht, hcne⟩
      exact ⟨p, hp, t, ht, by simpa using hcne⟩
    · rintro ⟨p, hp, t, ht, hcf⟩ hall
      have := hall p hp t ht
      rw [this] at hcf
      simp at hcf
  · exact validateAux_length r r.states

/-- C7 witness: `wReg` has exactly one dangling transition (a → c). -/
theorem claim7_validation_completeness_witness :
    wReg.validate_transitions.length = 1 :=
  (claim7_validation_completeness wReg).2.trans (by decide)

/-- C8: `mark_in_progress` only acts from PENDING and is a silent no-op
otherwise; `mark_completed` unconditionally sets COMPLETED and stamps
`completed_at`; `mark_blocked` unconditionally sets BLOCKED. -/
theorem claim8_task_status_marks (t : Task) (now : Int) :
    ((t.status = .pending →
        t.mark_in_progress = { t with status := .in_progress }) ∧
     (t.status ≠ .pending → t.mark_in_progress = t)) ∧
    t.mark_completed now
      = { t with status := .completed, completed_at := some now } ∧
    t.mark_blocked = { t with status := .blocked } := by
  refine ⟨⟨fun h => ?_, fun h => ?_⟩, rfl, rfl⟩
  · simp [Task.mark_in_progress, h]
  · simp [Task.mark_in_progress, h]

/-- C8 witness at a concrete pending task. -/
theorem claim8_task_status_marks_witness :
    wTaskPending.mark_in_progress
      = { wTaskPending with status := .in_progress } :=
  ((claim8_task_status_marks wTaskPending 0).1).1 rfl

theorem pathAux_append : ∀ (s : State) (acc : List String),
    s.pathAux acc = s.pathAux [] ++ acc
  | .mk n d de none c a t m, acc => by simp [State.pathAux]
  | .mk n d de (some ps) c a t m, acc => by
    show ps.pathAux (n :: acc) = ps.pathAux (n :: []) ++ acc
    rw [pathAux_append ps (n :: acc), pathAux_append ps (n :: [])]
    simp

theorem get_full_path_eq_chain :
    ∀ s : State, s.get_full_path = s.chain.map State.name
  | .mk n d de none c a t m => by
    simp [State.get_full_path, State.pathAux, State.chain, State.name]
  | .mk n d de (some ps) c a t m => by
    show ps.pathAux (n :: []) = _
    rw [pathAux_append ps (n :: [])]
    have hrec := get_full_path_eq_chain ps
    rw [show ps.pathAux [] = ps.get_full_path from rfl, hrec, State.chain]
    simp [State.name]

/-- C9: `get_full_path` terminates on every state of the model (a total
function on the inductive `State`, whose values are exactly the acyclic
parent chains) and returns the root-to-self ordered sequence of names
along the parent chain, ending with the state's own name. -/
theorem claim9_get_full_path_spec (s : State) :
    s.get_full_path = s.chain.map State.name ∧
    s.get_full_path ≠ [] ∧
    s.get_full_path.getLast? = some s.name := by
  obtain ⟨n, d, de, p, c, a, t, m⟩ := s
  refine ⟨get_full_path_eq_chain _, ?_, ?_⟩
  · rw [get_full_path_eq_chain, State.chain.eq_def]
    simp
  · rw [get_full_path_eq_chain, State.chain.eq_def]
    dsimp only
    simp only [List.map_append, List.map_cons, List.map_nil]
    rw [List.getLast?_concat]

/-- C9 witness at a concrete two-level hierarchy. -/
theorem claim9_get_full_path_spec_witness :
    wChild.get_full_path.getLast? = some wChild.name :=
  (claim9_get_full_path_spec wChild).2.2

/-- C2: a successful `transition_to` with `auto_create_tasks = true`
into a state with N task templates adds exactly N fresh entries to
`tasks` (the key list gains exactly the N fresh ids), and the i-th new
task carries the i-th template's title, description, assignee, metadata,
and `due_date = now + days_until_due` when specified, absent otherwise. -/
theorem claim2_template_expansion_count
    (txn txn' : Transaction) (reg : StateRegistry) (st : State)
    (target_state_name notes : String) (now : Int) (idBase : Nat)
    (hreg : txn.state_registry = some reg)
    (hst : reg.get target_state_name = some st)
    (hfresh : ∀ p ∈ txn.tasks, p.1 < idBase)
    (hok : txn.transition_to target_state_name notes true now idBase
      = .ok (true, txn')) :
    txn'.tasks.map Prod.fst
      = txn.tasks.map Prod.fst
        ++ (List.range st.task_templates.length).map (idBase + ·) ∧
    txn'.tasks.length = txn.tasks.length + st.task_templates.length ∧
    ∀ i tmpl, st.task_templates[i]? = some tmpl →
      ∃ tsk, txn'.get_task (idBase + i) = some tsk ∧
        tsk.title = tmpl.title ∧
        tsk.description = tmpl.description ∧
        tsk.assignee = tmpl.assignee ∧
        tsk.metadata = tmpl.metadata ∧
        tsk.due_date = tmpl.days_until_due.map (fun d => now + d) ∧
        tsk.created_at = now ∧
        tsk.status = .pending := by
  have hT := transition_to_ok_true txn txn' reg st target_state_name notes
    now idBase hreg hst hok
  subst hT
  rcases create_tasks_spec _ st now idBase hfresh with ⟨hkeys, hlook⟩
  refine ⟨hkeys, ?_, ?_⟩
  · have hlen := congrArg List.length hkeys
    simpa [List.length_map, List.length_append, List.length_range] using hlen
  · intro i tmpl hi
    have h := hlook i tmpl hi
    rcases wireSpec_fields st.task_templates _ (idBase + i)
      (taskOfTemplate tmpl (idBase + i) now) with ⟨deps, hdeps⟩
    rw [hdeps] at h
    exact ⟨_, h, rfl, rfl, rfl, rfl, rfl, rfl, rfl⟩

/-- C2 witness: the concrete two-template scenario adds two tasks. -/
theorem claim2_template_expansion_count_witness :
    wTxnWAfter.tasks.length
      = wTxnW.tasks.length + wStateW.task_templates.length :=
  (claim2_template_expansion_count wTxnW wTxnWAfter wRegW wStateW "w" ""
    5 50 rfl rfl (by intro p hp; simp [wTxnW] at hp) rfl).2.1

/-- C3: in a successful expansion with distinct template titles, the
i-th created task's dependency list is exactly the i-th template's
`dependencies` filtered through the batch title-to-id mapping; that
mapping sends each batch title to that template's new task id and every
name outside the batch (in particular any other state's template title)
to nothing, so unresolved names are silently skipped. -/
theorem claim3_dependency_wiring_scope
    (txn txn' : Transaction) (reg : StateRegistry) (st : State)
    (target_state_name notes : String) (now : Int) (idBase : Nat)
    (hreg : txn.state_registry = some reg)
    (hst : reg.get target_state_name = some st)
    (hfresh : ∀ p ∈ txn.tasks, p.1 < idBase)
    (hNodup : (st.task_templates.map TaskTemplate.title).Nodup)
    (hok : txn.transition_to target_state_name notes true now idBase
      = .ok (true, txn')) :
    (∀ i tmpl, st.task_templates[i]? = some tmpl →
      txn'.get_task (idBase + i)
        = some { taskOfTemplate tmpl (idBase + i) now with
            dependencies := tmpl.dependencies.filterMap
              (fun n => dlookup (batchTitleMap st.task_templates idBase) n) }) ∧
    (∀ j tmpl, st.task_templates[j]? = some tmpl →
      dlookup (batchTitleMap st.task_templates idBase) tmpl.title
        = some (idBase + j)) ∧
    (∀ n, n ∉ st.task_templates.map TaskTemplate.title →
      dlookup (batchTitleMap st.task_templates idBase) n = none) := by
  have hT := transition_to_ok_true txn txn' reg st target_state_name notes
    now idBase hreg hst hok
  subst hT
  rcases create_tasks_spec _ st now idBase hfresh with ⟨_, hlook⟩
  refine ⟨?_,
    fun j tmpl hj => batchTitleMap_dlookup_of_get _ _ _ _ hNodup hj,
    fun n hn => batchTitleMap_dlookup_none _ _ _ hn⟩
  intro i tmpl hi
  have ht2t : (instantiatePass st.task_templates now idBase [] txn.tasks).1
      = batchTitleMap st.task_templates idBase := by
    have h := instantiatePass_fst st.task_templates now idBase [] txn.tasks
      hNodup (by intro t ht; simp)
    simpa using h
  have h := hlook i tmpl hi
  rw [ht2t, wireSpec_batch st.task_templates idBase i tmpl _ hNodup hi] at h
  rw [show (taskOfTemplate tmpl (idBase + i) now).dependencies = [] from rfl,
    List.nil_append] at h
  exact h

/-- C3 witness: in the concrete scenario, "Repair" (second template)
depends exactly on "Inspect"'s new id, and "Ghost" is skipped. -/
theorem claim3_dependency_wiring_scope_witness :
    wTxnWAfter.get_task (50 + 1)
      = some { taskOfTemplate wTmplB (50 + 1) 5 with
          dependencies := wTmplB.dependencies.filterMap
            (fun n => dlookup (batchTitleMap wStateW.task_templates 50) n) } :=
  (claim3_dependency_wiring_scope wTxnW wTxnWAfter wRegW wStateW "w" ""
    5 50 rfl rfl (by intro p hp; simp [wTxnW] at hp) (by decide) rfl).1
    1 wTmplB rfl

/-- C6 counterexample: a transaction whose current state is named by the
empty string does not survive `from_dict(to_dict(x))` even though the
registry contains that name — the truthiness guard
`if current_state_name:` in `Transaction.from_dict` drops it. -/
theorem claim6_round_trip_cex :
    Transaction.from_dict cexTxn.to_dict cexReg ≠ some cexTxn := by
  intro h
  have he : Transaction.from_dict cexTxn.to_dict cexReg
      = some cexTxnBroken := by
    rw [txn_from_to]
    rfl
  rw [he] at h
  have h2 := Option.some.inj h
  have h3 := congrArg Transaction.current_state h2
  rw [show cexTxnBroken.current_state = none from rfl,
    show cexTxn.current_state = some cexState from rfl] at h3
  exact Option.noConfusion h3

/-- C6 (amended): `from_dict(to_dict(x))` reproduces every Task and
every StateTransition field-for-field (null-vs-absent statuses and
dependency-id lists included), and reproduces every Transaction whose
referenced state names are non-empty, provided the registry maps each
referenced name to the referenced state and is the transaction's own
registry; a current state with empty-string name is dropped to unset by
the truthiness guard. -/
theorem claim6_round_trip :
    (∀ t : Task, Task.from_dict t.to_dict = some t) ∧
    (∀ st : StateTransition, StateTransition.from_dict st.to_dict = some st) ∧
    (∀ (x : Transaction) (reg : StateRegistry),
      x.state_registry = some reg →
      (∀ s, x.current_state = some s → s.name ≠ "" ∧ reg.get s.name = some s) →
      Transaction.from_dict x.to_dict reg = some x) := by
  refine ⟨task_from_to, sttr_from_to, ?_⟩
  intro x reg hreg hres
  obtain ⟨id, addr, cs, hist, tasks, pm, ca, md, sr⟩ := x
  dsimp only at hreg hres
  subst hreg
  rcases cs with _ | s
  · rw [txn_from_to]
  · rcases hres s rfl with ⟨hne, hget⟩
    rw [txn_from_to]
    dsimp only
    rw [if_neg hne, hget]

/-- C6 witness: a concrete transaction with history, a task and a
resolvable non-empty current state round-trips exactly. -/
theorem claim6_round_trip_witness :
    Transaction.from_dict rtTxn.to_dict wReg = some rtTxn :=
  claim6_round_trip.2.2 rtTxn wReg rfl (by
    intro s hs
    rw [show rtTxn.current_state = some wStateA from rfl] at hs
    cases hs
    exact ⟨by decide, rfl⟩)

/-- C10: deserialization never raises on an unresolvable name: a
serialized Transaction whose current state name is unregistered
deserializes successfully with `current_state` unset, and a serialized
State whose parent name is unregistered deserializes successfully with
`parent` unset. -/
theorem claim10_deserialization_tolerant :
    (∀ (x : Transaction) (reg : StateRegistry) (s : State),
      x.current_state = some s → reg.get s.name = none →
      Transaction.from_dict x.to_dict reg
        = some { x with current_state := none, state_registry := some reg }) ∧
    (∀ (s : State) (reg : StateRegistry) (p : State),
      s.parent = some p → reg.get p.name = none →
      State.from_dict s.to_dict reg
        = some (.mk s.name s.display_name s.description none []
            s.allowed_transitions s.task_templates s.metadata)) := by
  constructor
  · intro x reg s hcs hget
    rw [txn_from_to, hcs]
    dsimp only
    by_cases hname : s.name = ""
    · rw [if_pos hname]
    · rw [if_neg hname, hget]
  · intro s reg p hp hget
    have hcont : reg.containsName p.name = false := by
      unfold StateRegistry.containsName
      rw [dcontains_eq_isSome_dlookup]
      unfold StateRegistry.get at hget
      rw [hget]
      rfl
    rw [state_from_to, hp]
    dsimp only
    by_cases hname : p.name = ""
    · rw [if_pos hname]
    · rw [if_neg hname, if_neg (by simp [hcont])]

/-- C10 witness: a concrete state with an unregistered parent
deserializes with `parent` unset. -/
theorem claim10_deserialization_tolerant_witness :
    State.from_dict wChild.to_dict emptyReg
      = some (.mk "kid" "K" "" none [] ["a"] [wTmplA] (.num 3)) :=
  claim10_deserialization_tolerant.2 wChild emptyReg wStateA rfl rfl

end Ingest
